import Mathlib

set_option linter.unusedVariables false

/-!
Verification of the session/dispatch layer of the LibreOffice MCP server
(`libreoffice.py`).  The Python module keeps an `AppContext` holding a
LibreOffice loader handle, a `doc_id -> document` dictionary and a
monotone `next_id` counter; MCP tools open, close and operate on the
stored documents.  We embed that state and the relevant handlers as pure
Lean functions: the dictionary becomes an association list, mutation
becomes state passing, `raise RuntimeException(msg)` becomes
`Except.error msg`, and the remote LibreOffice engine (ooodev) is
represented by explicit document content passed in and out.
-/

/-- The Python classes a stored document can be an instance of:
`WriteDoc` (writer), `CalcDoc` (calc), `DrawDoc` (draw and impress both
map to this class) or a Base database document (`doc_types["base"]` is
`None`; such documents are produced by `Lo.open_doc`/`Lo.create_doc`). -/
inductive DocKind where
  | writer
  | calc
  | draw
  | base
  deriving DecidableEq, Repr

/-- A stored document: its Python class together with an opaque handle
identifying the remote object. -/
structure Document where
  kind : DocKind
  handle : Nat
  deriving DecidableEq, Repr

/-- The `AppContext.documents` dictionary: `doc_id -> document`, embedded
as an association list (later bindings shadow none because ids are fresh). -/
abbrev Registry := List (String × Document)

/-- `AppContext.get_document`: `self.documents.get(doc_id)`. -/
def get_document (docs : Registry) (doc_id : String) : Option Document :=
  (List.find? (fun p => p.1 = doc_id) docs).map Prod.snd

/-- `AppContext.add_document`: `self.documents[doc_id] = doc`. -/
def add_document (docs : Registry) (doc_id : String) (doc : Document) : Registry :=
  (doc_id, doc) :: docs

/-- `AppContext.remove_document`: `self.documents.pop(doc_id, None)` —
silently drops the binding, present or not. -/
def remove_document (docs : Registry) (doc_id : String) : Registry :=
  List.filter (fun p => ¬ p.1 = doc_id) docs

/-- The mutable fields of `AppContext`: the loader handle (`None` while
disconnected), the documents dictionary and the id counter. -/
structure AppContext where
  loader : Option Nat
  documents : Registry
  next_id : Nat

/-- `AppContext.start_office`: if `self.loader is None`, attempt
`Lo.load_office` (whose outcome we pass in as `connectResult`, the remote
engine being outside the program); on success store and return the
loader, on failure re-raise.  If a loader already exists it is returned
unchanged. -/
def start_office (ctx : AppContext) (connectResult : Except String Nat) :
    Except String (AppContext × Nat) :=
  match ctx.loader with
  | some l => .ok (ctx, l)
  | none =>
    match connectResult with
    | .ok l => .ok ({ ctx with loader := some l }, l)
    | .error e => .error e

/-- `AppContext.close_office`: if `self.loader is not None`, close the
office and set the loader to `None`; otherwise do nothing. -/
def close_office (ctx : AppContext) : AppContext :=
  match ctx.loader with
  | some _ => { ctx with loader := none }
  | none => ctx

/-- Decimal digit characters, most significant first, of a natural
number, built on `Nat.digits` (little-endian) — the rendering CPython
uses inside the f-string `f"doc_{app_ctx.next_id}"`. -/
def natDecimal (n : Nat) : List Char :=
  if n = 0 then ['0'] else ((Nat.digits 10 n).map Nat.digitChar).reverse

/-- The id string `f"doc_{app_ctx.next_id}"` allocated by
`open_document` / `new_document`. -/
def mkDocId (n : Nat) : String :=
  String.mk ('d' :: 'o' :: 'c' :: '_' :: natDecimal n)

/-- The shared tail of `open_document` and `new_document`: after the
document object `doc` has been produced,
`doc_id = f"doc_{app_ctx.next_id}"; app_ctx.next_id += 1;
app_ctx.add_document(doc_id, doc); return doc_id`. -/
def allocate (ctx : AppContext) (doc : Document) : String × AppContext :=
  let doc_id := mkDocId ctx.next_id
  (doc_id,
    { ctx with
      next_id := ctx.next_id + 1
      documents := add_document ctx.documents doc_id doc })

/-- `close_document`: look the id up; raise `"Document not found"` when
absent; otherwise close the remote document and
`app_ctx.remove_document(doc_id)`. -/
def close_document (ctx : AppContext) (doc_id : String) :
    Except String AppContext :=
  match get_document ctx.documents doc_id with
  | none => .error "Document not found"
  | some _ =>
    .ok { ctx with documents := remove_document ctx.documents doc_id }

/-- The Python class an operation requires its document to be an
instance of: `CalcDoc` for the spreadsheet tools, `WriteDoc` for the
writer tools. -/
inductive ReqKind where
  | spreadsheet
  | text
  deriving DecidableEq, Repr

/-- `isinstance(doc, CalcDoc)` / `isinstance(doc, WriteDoc)` for the
required class. -/
def isinstanceReq (doc : Document) : ReqKind → Bool
  | .spreadsheet => doc.kind = .calc
  | .text => doc.kind = .writer

/-- The message of the `RuntimeException` the guard raises. -/
def reqMsg : ReqKind → String
  | .spreadsheet => "Document is not a spreadsheet"
  | .text => "Document is not a text document"

/-- The dispatch guard at the top of every spreadsheet/writer tool:
`doc = app_ctx.get_document(doc_id)`;
`if not doc or not isinstance(doc, C): raise RuntimeException(msg)`.
A single check and a single message cover both the absent-id case and
the wrong-class case. -/
def authorize (docs : Registry) (doc_id : String) (req : ReqKind) :
    Except String Document :=
  match get_document docs doc_id with
  | none => .error (reqMsg req)
  | some doc =>
    if isinstanceReq doc req then .ok doc else .error (reqMsg req)

/-- A zero-based cell coordinate pair. -/
structure Address where
  column : Nat
  row : Nat
  deriving DecidableEq, Repr

/-- A normalized, sheet-qualified rectangular range descriptor. -/
structure RangeAddress where
  sheetIndex : Nat
  startColumn : Nat
  startRow : Nat
  endColumn : Nat
  endRow : Nat
  deriving DecidableEq, Repr

/-- Value of a decimal digit string, most significant first. -/
def digitsVal (cs : List Char) : Nat :=
  cs.foldl (fun a c => 10 * a + (c.toNat - 48)) 0

/-- Modelled from the spec: the Address/Range Model is implemented by the
external ooodev library (`sheet[cell_address]`, `sheet.rng(...)`), whose
source is not part of this repository; this definition follows the
single-address algorithm of spec section 4.4 with the single-letter
column policy.  Reject empty input, a first character that is not a
letter, or trailing characters that are not all decimal digits; column
is `letter - 'A'` after uppercasing (case-insensitive); row is the
parsed 1-based integer minus one; reject a negative column or row. -/
def parseAddress (s : String) : Except String Address :=
  match s.data with
  | [] => .error "InvalidAddress"
  | c :: rest =>
    if ¬ c.isAlpha then .error "InvalidAddress"
    else if rest = [] then .error "InvalidAddress"
    else if ¬ rest.all Char.isDigit then .error "InvalidAddress"
    else
      let colv : Int := (c.toUpper.toNat : Int) - 65
      let rowv : Int := (digitsVal rest : Int) - 1
      if colv < 0 ∨ rowv < 0 then .error "InvalidAddress"
      else .ok ⟨colv.toNat, rowv.toNat⟩

/-- Split of a character list at every `:`. -/
def splitOnColon : List Char → List (List Char)
  | [] => [[]]
  | c :: rest =>
    match splitOnColon rest with
    | [] => [[]]
    | t :: ts => if c = ':' then [] :: t :: ts else (c :: t) :: ts

/-- Modelled from the spec: range parsing of spec section 4.4, also
implemented by the external ooodev library.  Split on the `:` separator;
no separator means a single-cell range with `start = end`; one separator
means two address tokens, normalized so that `start ≤ end` componentwise;
any other separator count is invalid.  The caller-supplied sheet index
is attached. -/
def parseRange (sheetIndex : Nat) (s : String) : Except String RangeAddress :=
  match (splitOnColon s.data).map (fun cs => parseAddress (String.mk cs)) with
  | [.ok a] => .ok ⟨sheetIndex, a.column, a.row, a.column, a.row⟩
  | [.ok a, .ok b] =>
    .ok ⟨sheetIndex, min a.column b.column, min a.row b.row,
      max a.column b.column, max a.row b.row⟩
  | _ => .error "InvalidAddress"

/-- Content a spreadsheet cell can hold: nothing, a string, or a number
(Python `int`/`float`, modelled as a rational). -/
inductive CellValue where
  | empty
  | str (s : String)
  | num (q : ℚ)
  deriving DecidableEq

/-- A sheet of cells, addressed by zero-based coordinates. -/
abbrev Sheet := Address → CellValue

/-- The numeric content of a cell, when `isinstance(cell.value, (int, float))`. -/
def numVal : CellValue → Option ℚ
  | .num q => some q
  | _ => none

/-- The cells of a rectangular range, row-major, as iterating
`for cell in rng` yields them. -/
def rangeCells (sheet : Sheet) (r : RangeAddress) : List CellValue :=
  (List.range (r.endRow + 1 - r.startRow)).flatMap fun i =>
    (List.range (r.endColumn + 1 - r.startColumn)).map fun j =>
      sheet ⟨r.startColumn + j, r.startRow + i⟩

/-- Rendering of a Python `bool` inside an f-string. -/
def pyBool (b : Bool) : String := if b then "True" else "False"

/-- The `alignment_map` dictionary of `format_cell_range`, keyed by
`alignment.lower()`. -/
def alignment_map : String → Option String
  | "left" => some "LEFT"
  | "center" => some "CENTER"
  | "right" => some "RIGHT"
  | _ => none

/-- Arguments `format_cell_range` hands to the range returned by
`sheet.rng(range_address)`: the structured range plus the font and
justification settings applied to it. -/
structure FormatCellRangeCall where
  rng : RangeAddress
  font_name : String
  font_size : Nat
  bold : Bool
  italic : Bool
  hori_justification : String
  deriving DecidableEq, Repr

/-- `AppContext.format_cell_range`: dispatch guard, `sheet.rng(...)`,
font/style setters, alignment validation and justification, then the
confirmation message. -/
def format_cell_range (docs : Registry) (doc_id sheet_name range_address : String)
    (font_name : String) (font_size : Nat) (bold italic : Bool) (alignment : String) :
    Except String (FormatCellRangeCall × String) :=
  match authorize docs doc_id .spreadsheet with
  | .error e => .error e
  | .ok _ =>
    match parseRange 0 range_address with
    | .error e => .error e
    | .ok rng =>
      match alignment_map alignment.toLower with
      | none => .error "Invalid alignment. Use: left, center, right"
      | some j =>
        .ok (⟨rng, font_name, font_size, bold, italic, j⟩,
          "Formatted range " ++ range_address ++ " with " ++ font_name ++ " "
            ++ toString font_size ++ "pt, bold=" ++ pyBool bold ++ ", italic="
            ++ pyBool italic ++ ", aligned " ++ alignment)

/-- What `conditional_format` does with the structured range: per cell of
`rng`, in iteration order, the background color it sets (none for a
non-numeric cell). -/
structure ConditionalFormatCall where
  rng : RangeAddress
  colors : List (Option String)
  deriving DecidableEq, Repr

/-- `AppContext.conditional_format`: dispatch guard, `sheet.rng(...)`,
then for each cell of the range set `above_color` when its numeric value
exceeds the threshold, `below_color` when it is numeric otherwise, and
nothing when it is not numeric. -/
def conditional_format (docs : Registry) (doc_id sheet_name range_address : String)
    (sheet : Sheet) (threshold : ℚ) (above_color below_color : String) :
    Except String (ConditionalFormatCall × String) :=
  match authorize docs doc_id .spreadsheet with
  | .error e => .error e
  | .ok _ =>
    match parseRange 0 range_address with
    | .error e => .error e
    | .ok rng =>
      let colors := (rangeCells sheet rng).map fun cv =>
        match numVal cv with
        | some q => if threshold < q then some above_color else some below_color
        | none => none
      .ok (⟨rng, colors⟩,
        "Applied conditional formatting to " ++ range_address
          ++ " with threshold " ++ toString threshold)

/-- The `chart_types` dictionary of `create_chart`; the ooodev template
constants are represented by their names. -/
def chart_types : String → Option String
  | "column" => some "ChartTypes.Column.TEMPLATE_STACKED.COLUMN"
  | "bar" => some "ChartTypes.Bar.TEMPLATE_STACKED.BAR"
  | "line" => some "ChartTypes.Line.TEMPLATE_LINE.LINE"
  | "pie" => some "ChartTypes.Pie.TEMPLATE_DONUT.PIE"
  | _ => none

/-- The keyword arguments of `sheet.charts.insert_chart(...)` as
`create_chart` and `create_pivot_table` pass them: the parsed range
object, the raw target cell name, fixed width and height, and the
diagram template. -/
structure InsertChartCall where
  rng_obj : RangeAddress
  cell_name : String
  width : Nat
  height : Nat
  diagram_name : String
  deriving DecidableEq, Repr

/-- `AppContext.create_chart`: dispatch guard, chart-type validation,
then `insert_chart` on the parsed range and the confirmation message
(title, axis-label and legend setters follow on the chart object and are
not modelled beyond the message). -/
def create_chart (docs : Registry)
    (doc_id sheet_name range_address target_cell chart_type title : String)
    (show_legend show_data_labels : Bool) :
    Except String (InsertChartCall × String) :=
  match authorize docs doc_id .spreadsheet with
  | .error e => .error e
  | .ok _ =>
    match chart_types chart_type with
    | none => .error "Invalid chart type. Use: column, bar, line, pie"
    | some diagram =>
      match parseRange 0 range_address with
      | .error e => .error e
      | .ok rng =>
        .ok (⟨rng, target_cell, 15, 11, diagram⟩,
          "Created " ++ chart_type ++ " chart at " ++ target_cell
            ++ " with title \x27" ++ title ++ "\x27, legend=" ++ pyBool show_legend
            ++ ", data_labels=" ++ pyBool show_data_labels)

/-- `create_pivot_table`: dispatch guard, then `insert_chart` with the
parsed source range and the pivot template. -/
def create_pivot_table (docs : Registry)
    (doc_id sheet_name source_range target_cell : String) :
    Except String (InsertChartCall × String) :=
  match authorize docs doc_id .spreadsheet with
  | .error e => .error e
  | .ok _ =>
    match parseRange 0 source_range with
    | .error e => .error e
    | .ok rng =>
      .ok (⟨rng, target_cell, 15, 11, "ChartTypes.Pivot.TEMPLATE_PIVOT.PIVOT"⟩,
        "Created pivot table at " ++ target_cell)

/-- The `SortField` struct: `Field` and `SortAscending`. -/
structure SortFieldRec where
  Field : Int
  SortAscending : Bool
  deriving DecidableEq, Repr

/-- The arguments of `rng.sort([sort_field])`: the structured range and
the sort field list. -/
structure SortRangeCall where
  rng : RangeAddress
  fields : List SortFieldRec
  deriving DecidableEq, Repr

/-- `sort_range`: dispatch guard, `sheet.rng(...)`, one `SortField`, and
the sort call on the range. -/
def sort_range (docs : Registry) (doc_id sheet_name range_address : String)
    (sort_column : Int) (ascending : Bool) :
    Except String (SortRangeCall × String) :=
  match authorize docs doc_id .spreadsheet with
  | .error e => .error e
  | .ok _ =>
    match parseRange 0 range_address with
    | .error e => .error e
    | .ok rng =>
      .ok (⟨rng, [⟨sort_column, ascending⟩]⟩,
        "Sorted range " ++ range_address ++ " by column " ++ toString sort_column
          ++ " " ++ (if ascending then "ascending" else "descending"))

/-- The dictionary `calculate_statistics` returns. -/
structure Stats where
  sum : ℚ
  average : ℚ
  deriving DecidableEq, Repr

/-- `calculate_statistics`: dispatch guard, `sheet.rng(...)`, collect the
numeric cell values of the range; with no numeric values return sum and
average zero, otherwise the sum and the sum divided by the count.  The
result is paired with the structured range the values were read from. -/
def calculate_statistics (docs : Registry)
    (doc_id sheet_name range_address : String) (sheet : Sheet) :
    Except String (RangeAddress × Stats) :=
  match authorize docs doc_id .spreadsheet with
  | .error e => .error e
  | .ok _ =>
    match parseRange 0 range_address with
    | .error e => .error e
    | .ok rng =>
      let values := (rangeCells sheet rng).filterMap numVal
      if values = [] then .ok (rng, ⟨0, 0⟩)
      else
        let total := values.sum
        .ok (rng, ⟨total, total / values.length⟩)

/-- `set_cell_value`: dispatch guard, look the cell up, then
`cell.value = float(value)` and on a `ValueError` from `float`
`cell.value = value`; the outcome of Python `float(...)` is supplied as
the function `pyFloat` (success gives the parsed number, failure a
`ValueError`).  Returns the updated sheet and the confirmation
message. -/
def set_cell_value (pyFloat : String → Option ℚ) (docs : Registry)
    (doc_id sheet_name cell_address : String) (sheet : Sheet) (value : String) :
    Except String (Sheet × String) :=
  match authorize docs doc_id .spreadsheet with
  | .error e => .error e
  | .ok _ =>
    match parseAddress cell_address with
    | .error e => .error e
    | .ok addr =>
      let newVal := match pyFloat value with
        | some q => CellValue.num q
        | none => CellValue.str value
      .ok (fun a => if a = addr then newVal else sheet a,
        "Set " ++ cell_address ++ " to " ++ value)

/-- `insert_text`: dispatch guard against `WriteDoc`, measure the
current text, reject a position outside `[0, total_length]`, otherwise
move the cursor to `position` from the start and append the text there.
The document text is passed in and the updated text returned. -/
def insert_text (docs : Registry) (doc_id : String) (docText text : String)
    (position : Int) : Except String (String × String) :=
  match authorize docs doc_id .text with
  | .error e => .error e
  | .ok _ =>
    let total_length : Int := docText.length
    if position < 0 ∨ total_length < position then
      .error ("Position " ++ toString position ++ " out of range (0-"
        ++ toString total_length ++ ")")
    else
      .ok (String.mk (docText.data.take position.toNat ++ text.data
          ++ docText.data.drop position.toNat),
        "Inserted \x27" ++ text ++ "\x27 at position " ++ toString position)

/-- Observable interactions with the remote engine during shutdown. -/
inductive Event where
  | closeDoc (doc_id : String)
  | disconnect
  deriving DecidableEq, Repr

/-- The loop in the `finally` block of `app_lifespan`:
`for doc_id in list(app_ctx.documents.keys())`, fetch the document,
close it when found, and remove the id. -/
def shutdownLoop : List String → Registry → List Event × Registry
  | [], docs => ([], docs)
  | doc_id :: rest, docs =>
    let evs1 := match get_document docs doc_id with
      | some _ => [Event.closeDoc doc_id]
      | none => []
    let step := shutdownLoop rest (remove_document docs doc_id)
    (evs1 ++ step.1, step.2)

/-- The `finally` block of `app_lifespan`: close and remove every stored
document, then `app_ctx.close_office()` (which disconnects only when a
loader exists). -/
def app_shutdown (ctx : AppContext) : List Event × AppContext :=
  let step := shutdownLoop (ctx.documents.map Prod.fst) ctx.documents
  (step.1 ++ (match ctx.loader with | some _ => [Event.disconnect] | none => []),
    close_office { ctx with documents := step.2 })

/-- A session-registry operation: a successful open/create, or a close
attempt on an id. -/
inductive Op where
  | alloc (doc : Document)
  | close (doc_id : String)

/-- Effect of one operation on the context (a failed close leaves the
context unchanged). -/
def runOp (ctx : AppContext) : Op → AppContext
  | .alloc doc => (allocate ctx doc).2
  | .close doc_id =>
    match close_document ctx doc_id with
    | .ok ctx2 => ctx2
    | .error _ => ctx

/-- Effect of a sequence of operations. -/
def runOps (ctx : AppContext) : List Op → AppContext
  | [] => ctx
  | op :: ops => runOps (runOp ctx op) ops

/-- The ids handed out by the allocations in an operation sequence, in
order. -/
def allocIds (ctx : AppContext) : List Op → List String
  | [] => []
  | .alloc doc :: ops => (allocate ctx doc).1 :: allocIds (runOp ctx (.alloc doc)) ops
  | .close doc_id :: ops => allocIds (runOp ctx (.close doc_id)) ops

/-- The counter values consumed by the allocations in an operation
sequence, in order. -/
def allocNums (ctx : AppContext) : List Op → List Nat
  | [] => []
  | .alloc doc :: ops => ctx.next_id :: allocNums (runOp ctx (.alloc doc)) ops
  | .close doc_id :: ops => allocNums (runOp ctx (.close doc_id)) ops

/-- Registry invariant: every stored id was produced by the allocator,
with a counter value below the current one. -/
def RegInv (ctx : AppContext) : Prop :=
  ∀ p ∈ ctx.documents, ∃ m, p.1 = mkDocId m ∧ m < ctx.next_id

/-- An id that has been retired: it is absent from the registry and its
counter value (if it is an allocator-produced id at all) is already
spent. -/
def Gone (ctx : AppContext) (doc_id : String) : Prop :=
  get_document ctx.documents doc_id = none
    ∧ ∀ m, doc_id = mkDocId m → m < ctx.next_id

theorem get_document_cons (p : String × Document) (ps : Registry) (doc_id : String) :
    get_document (p :: ps) doc_id =
      if p.1 = doc_id then some p.2 else get_document ps doc_id := by
  by_cases h : p.1 = doc_id <;>
    simp [get_document, List.find?_cons_of_pos, List.find?_cons_of_neg, h]

theorem remove_document_cons (p : String × Document) (ps : Registry) (i : String) :
    remove_document (p :: ps) i =
      if p.1 = i then remove_document ps i else p :: remove_document ps i := by
  by_cases hp : p.1 = i <;> simp [remove_document, List.filter_cons, hp]

theorem get_document_remove_self (docs : Registry) (doc_id : String) :
    get_document (remove_document docs doc_id) doc_id = none := by
  induction docs with
  | nil => rfl
  | cons p ps ih =>
    rw [remove_document_cons]
    by_cases hp : p.1 = doc_id
    · rw [if_pos hp]; exact ih
    · rw [if_neg hp, get_document_cons, if_neg hp]; exact ih

theorem get_document_remove_other (docs : Registry) (i j : String) (h : j ≠ i) :
    get_document (remove_document docs i) j = get_document docs j := by
  induction docs with
  | nil => rfl
  | cons p ps ih =>
    rw [remove_document_cons, get_document_cons]
    by_cases hp : p.1 = i
    · rw [if_pos hp]
      have h1 : ¬ p.1 = j := fun hc => h (hc.symm.trans hp)
      rw [if_neg h1]
      exact ih
    · rw [if_neg hp, get_document_cons]
      by_cases hj : p.1 = j
      · rw [if_pos hj, if_pos hj]
      · rw [if_neg hj, if_neg hj]; exact ih

theorem get_document_some_mem (docs : Registry) (i : String) (d : Document)
    (h : get_document docs i = some d) : (i, d) ∈ docs := by
  induction docs with
  | nil => simp [get_document] at h
  | cons p ps ih =>
    rw [get_document_cons] at h
    by_cases hp : p.1 = i
    · rw [if_pos hp] at h
      have hpd : p = (i, d) := by
        cases p
        simp_all
      rw [← hpd]
      exact List.mem_cons_self _ _
    · rw [if_neg hp] at h
      exact List.mem_cons_of_mem _ (ih h)

theorem get_document_isSome_of_mem (docs : Registry) (i : String)
    (h : i ∈ docs.map Prod.fst) : (get_document docs i).isSome := by
  induction docs with
  | nil => simp at h
  | cons p ps ih =>
    rw [get_document_cons]
    by_cases hp : p.1 = i
    · simp [hp]
    · rw [if_neg hp]
      rcases List.mem_map.mp h with ⟨q, hq, hqi⟩
      rcases List.mem_cons.mp hq with rfl | hq2
      · exact absurd hqi hp
      · exact ih (List.mem_map.mpr ⟨q, hq2, hqi⟩)

theorem char_isUpper_iff (c : Char) : c.isUpper = true ↔ 65 ≤ c.toNat ∧ c.toNat ≤ 90 := by
  simp only [Char.isUpper, Char.toNat, UInt32.le_def, BitVec.le_def, Bool.and_eq_true,
    decide_eq_true_eq]
  exact Iff.rfl

theorem char_isLower_iff (c : Char) : c.isLower = true ↔ 97 ≤ c.toNat ∧ c.toNat ≤ 122 := by
  simp only [Char.isLower, Char.toNat, UInt32.le_def, BitVec.le_def, Bool.and_eq_true,
    decide_eq_true_eq]
  exact Iff.rfl

theorem char_isDigit_iff (c : Char) : c.isDigit = true ↔ 48 ≤ c.toNat ∧ c.toNat ≤ 57 := by
  simp only [Char.isDigit, Char.toNat, UInt32.le_def, BitVec.le_def, Bool.and_eq_true,
    decide_eq_true_eq]
  exact Iff.rfl

theorem char_toUpper_eq_self (c : Char) (h : c.toNat ≤ 90) : c.toUpper = c := by
  simp only [Char.toUpper]
  rw [if_neg]
  omega

theorem char_isAlpha_of_upper (c : Char) (h1 : 65 ≤ c.toNat) (h2 : c.toNat ≤ 90) :
    c.isAlpha = true := by
  simp only [Char.isAlpha, Bool.or_eq_true, char_isUpper_iff]
  left
  exact ⟨h1, h2⟩

theorem digitChar_inj (a b : Nat) (ha : a < 10) (hb : b < 10)
    (h : Nat.digitChar a = Nat.digitChar b) : a = b := by
  interval_cases a <;> interval_cases b <;> revert h <;> decide

theorem map_digitChar_inj : ∀ (l1 l2 : List Nat), (∀ x ∈ l1, x < 10) → (∀ x ∈ l2, x < 10) →
    l1.map Nat.digitChar = l2.map Nat.digitChar → l1 = l2
  | [], [], _, _, _ => rfl
  | [], b :: l2, _, _, h => by simp at h
  | a :: l1, [], _, _, h => by simp at h
  | a :: l1, b :: l2, h1, h2, h => by
    simp only [List.map_cons, List.cons.injEq] at h
    have hab := digitChar_inj a b (h1 a (by simp)) (h2 b (by simp)) h.1
    have htl := map_digitChar_inj l1 l2 (fun x hx => h1 x (by simp [hx]))
      (fun x hx => h2 x (by simp [hx])) h.2
    rw [hab, htl]

theorem natDecimal_nonzero (n : Nat) (hn : n ≠ 0) :
    ((Nat.digits 10 n).map Nat.digitChar).reverse ≠ ['0'] := by
  intro h
  have h2 : (Nat.digits 10 n).map Nat.digitChar = ['0'] := by
    have := congrArg List.reverse h
    simpa using this
  have hlen : (Nat.digits 10 n).length = 1 := by
    have := congrArg List.length h2
    simpa using this
  obtain ⟨d, hd⟩ := List.length_eq_one.mp hlen
  rw [hd] at h2
  simp only [List.map_cons, List.map_nil, List.cons.injEq, and_true] at h2
  have hd10 : d < 10 := Nat.digits_lt_base (by norm_num) (by rw [hd]; simp)
  have hd0 : d = 0 := digitChar_inj d 0 hd10 (by norm_num) h2
  have hof := Nat.ofDigits_digits 10 n
  rw [hd, hd0] at hof
  simp [Nat.ofDigits] at hof
  exact hn hof.symm

theorem natDecimal_inj : Function.Injective natDecimal := by
  intro m n h
  unfold natDecimal at h
  by_cases hm : m = 0 <;> by_cases hn : n = 0
  · rw [hm, hn]
  · rw [if_pos hm, if_neg hn] at h
    exact absurd h.symm (natDecimal_nonzero n hn)
  · rw [if_neg hm, if_pos hn] at h
    exact absurd h (natDecimal_nonzero m hm)
  · rw [if_neg hm, if_neg hn] at h
    have h2 := List.reverse_injective h
    have h3 := map_digitChar_inj (Nat.digits 10 m) (Nat.digits 10 n)
      (fun x hx => Nat.digits_lt_base (by norm_num) hx)
      (fun x hx => Nat.digits_lt_base (by norm_num) hx) h2
    exact Nat.digits_inj_iff.mp h3

theorem mkDocId_inj : Function.Injective mkDocId := by
  intro m n h
  unfold mkDocId at h
  have h2 : 'd' :: 'o' :: 'c' :: '_' :: natDecimal m
      = 'd' :: 'o' :: 'c' :: '_' :: natDecimal n := congrArg String.data h
  simp only [List.cons.injEq, true_and] at h2
  exact natDecimal_inj h2

theorem close_document_ok (ctx ctx2 : AppContext) (doc_id : String)
    (h : close_document ctx doc_id = .ok ctx2) :
    ctx2.next_id = ctx.next_id
      ∧ ctx2.documents = remove_document ctx.documents doc_id
      ∧ ctx2.loader = ctx.loader
      ∧ ∃ d, get_document ctx.documents doc_id = some d := by
  unfold close_document at h
  cases hg : get_document ctx.documents doc_id <;> rw [hg] at h
  · exact absurd h (by simp)
  · cases h
    exact ⟨rfl, rfl, rfl, _, rfl⟩

theorem close_document_error (ctx : AppContext) (doc_id : String)
    (h : get_document ctx.documents doc_id = none) :
    close_document ctx doc_id = .error "Document not found" := by
  unfold close_document
  rw [h]

theorem runOp_next_id_close (ctx : AppContext) (doc_id : String) :
    (runOp ctx (.close doc_id)).next_id = ctx.next_id := by
  simp only [runOp]
  cases hc : close_document ctx doc_id with
  | ok ctx2 => exact (close_document_ok ctx ctx2 doc_id hc).1
  | error e => rfl

theorem runOp_alloc (ctx : AppContext) (doc : Document) :
    runOp ctx (.alloc doc)
      = { ctx with
          next_id := ctx.next_id + 1
          documents := (mkDocId ctx.next_id, doc) :: ctx.documents } := rfl

theorem next_id_le_runOp (ctx : AppContext) (op : Op) :
    ctx.next_id ≤ (runOp ctx op).next_id := by
  cases op with
  | alloc doc => rw [runOp_alloc]; exact Nat.le_succ _
  | close doc_id => rw [runOp_next_id_close]

theorem regInv_runOp (ctx : AppContext) (op : Op) (h : RegInv ctx) :
    RegInv (runOp ctx op) := by
  cases op with
  | alloc doc =>
    rw [runOp_alloc]
    intro p hp
    rcases List.mem_cons.mp hp with rfl | hp2
    · exact ⟨ctx.next_id, rfl, Nat.lt_succ_self _⟩
    · rcases h p hp2 with ⟨m, hm, hlt⟩
      exact ⟨m, hm, Nat.lt_succ_of_lt hlt⟩
  | close doc_id =>
    simp only [runOp]
    cases hc : close_document ctx doc_id with
    | ok ctx2 =>
      rcases close_document_ok ctx ctx2 doc_id hc with ⟨hn, hd, _, _⟩
      intro p hp
      rw [hd] at hp
      rcases h p (List.mem_of_mem_filter hp) with ⟨m, hm, hlt⟩
      exact ⟨m, hm, by rw [hn]; exact hlt⟩
    | error e => exact h

theorem gone_runOp (ctx : AppContext) (op : Op) (doc_id : String)
    (h : Gone ctx doc_id) : Gone (runOp ctx op) doc_id := by
  cases op with
  | alloc doc =>
    rw [runOp_alloc]
    constructor
    · rw [get_document_cons, if_neg]
      · exact h.1
      · intro hc
        exact Nat.lt_irrefl ctx.next_id (h.2 ctx.next_id hc.symm)
    · intro m hm
      exact Nat.lt_succ_of_lt (h.2 m hm)
  | close i =>
    simp only [runOp]
    cases hc : close_document ctx i with
    | ok ctx2 =>
      rcases close_document_ok ctx ctx2 i hc with ⟨hn, hd, _, _⟩
      constructor
      · rw [hd]
        by_cases hij : doc_id = i
        · rw [hij]; exact get_document_remove_self _ _
        · rw [get_document_remove_other _ _ _ hij]; exact h.1
      · intro m hm
        rw [hn]
        exact h.2 m hm
    | error e => exact h

theorem gone_runOps (ctx : AppContext) (ops : List Op) (doc_id : String)
    (h : Gone ctx doc_id) : Gone (runOps ctx ops) doc_id := by
  induction ops generalizing ctx with
  | nil => exact h
  | cons op ops ih => exact ih _ (gone_runOp ctx op doc_id h)

theorem gone_of_close (ctx ctx2 : AppContext) (doc_id : String)
    (hinv : RegInv ctx) (h : close_document ctx doc_id = .ok ctx2) :
    Gone ctx2 doc_id := by
  rcases close_document_ok ctx ctx2 doc_id h with ⟨hn, hd, _, d, hget⟩
  constructor
  · rw [hd]
    exact get_document_remove_self _ _
  · rcases hinv (doc_id, d) (get_document_some_mem _ _ _ hget) with ⟨m0, hm0, hlt⟩
    intro m hm
    have hmm : m0 = m := mkDocId_inj (hm0.symm.trans hm)
    rw [hn, ← hmm]
    exact hlt

theorem allocIds_eq_map (ops : List Op) : ∀ ctx, allocIds ctx ops = (allocNums ctx ops).map mkDocId := by
  induction ops with
  | nil => intro ctx; rfl
  | cons op ops ih =>
    intro ctx
    cases op with
    | alloc doc =>
      simp only [allocIds, allocNums, List.map_cons]
      rw [ih]
      rfl
    | close i =>
      simp only [allocIds, allocNums]
      exact ih _

theorem allocNums_lb (ops : List Op) : ∀ ctx m, m ∈ allocNums ctx ops → ctx.next_id ≤ m := by
  induction ops with
  | nil => intro ctx m hm; simp [allocNums] at hm
  | cons op ops ih =>
    intro ctx m hm
    cases op with
    | alloc doc =>
      simp only [allocNums] at hm
      rcases List.mem_cons.mp hm with rfl | hm2
      · exact Nat.le_refl _
      · have h2 := ih _ m hm2
        rw [runOp_alloc] at h2
        exact Nat.le_trans (Nat.le_succ _) h2
    | close i =>
      simp only [allocNums] at hm
      have h2 := ih _ m hm
      rw [runOp_next_id_close] at h2
      exact h2

theorem allocNums_pairwise (ops : List Op) : ∀ ctx, List.Pairwise (· < ·) (allocNums ctx ops) := by
  induction ops with
  | nil => intro ctx; exact List.Pairwise.nil
  | cons op ops ih =>
    intro ctx
    cases op with
    | alloc doc =>
      simp only [allocNums]
      refine List.Pairwise.cons ?_ (ih _)
      intro m hm
      have h2 := allocNums_lb ops _ m hm
      rw [runOp_alloc] at h2
      exact Nat.lt_of_lt_of_le (Nat.lt_succ_self _) h2
    | close i =>
      simp only [allocNums]
      exact ih _

/-- C1: the dispatch guard returns the stored document exactly when the id
is present with the required class; but when the id is absent it raises
the same kind-mismatch message as a wrong-kind session — there is no
distinct not-found signal at this check, and the message carries only the
required kind, not the actual one.  The guard on an absent id yields
"Document is not a spreadsheet", while the not-found error used elsewhere
in the module is "Document not found"; two sessions of different actual
kinds produce identical errors. -/
theorem dispatch_counterexample :
    authorize [] "doc_0" ReqKind.spreadsheet = .error "Document is not a spreadsheet"
  ∧ close_document ⟨none, [], 0⟩ "doc_0" = .error "Document not found"
  ∧ "Document is not a spreadsheet" ≠ "Document not found"
  ∧ authorize [("doc_0", ⟨DocKind.writer, 0⟩)] "doc_0" ReqKind.spreadsheet
      = authorize [("doc_0", ⟨DocKind.base, 0⟩)] "doc_0" ReqKind.spreadsheet := by
  refine ⟨rfl, rfl, by decide, rfl⟩

/-- C1 (amended): the dispatch check returns the document handle iff a
session with that id exists and its kind equals the required kind; when
the session is absent or its kind differs it raises one and the same
error naming only the required kind (no distinct SessionNotFound, no
actual kind carried). -/
theorem dispatch_typed_guard (docs : Registry) (doc_id : String) (req : ReqKind) :
    (∀ doc, authorize docs doc_id req = .ok doc ↔
      (get_document docs doc_id = some doc ∧ isinstanceReq doc req = true))
  ∧ (get_document docs doc_id = none → authorize docs doc_id req = .error (reqMsg req))
  ∧ (∀ doc, get_document docs doc_id = some doc → isinstanceReq doc req = false →
      authorize docs doc_id req = .error (reqMsg req)) := by
  refine ⟨?_, ?_, ?_⟩
  · intro doc
    unfold authorize
    cases hg : get_document docs doc_id with
    | none =>
      simp
    | some d =>
      cases hk : isinstanceReq d req with
      | false =>
        simp only [hk, Bool.false_eq_true, if_false]
        constructor
        · intro h
          exact absurd h (by simp)
        · rintro ⟨heq, hins⟩
          cases Option.some.inj heq
          rw [hk] at hins
          exact absurd hins (by simp)
      | true =>
        simp only [hk, if_true]
        constructor
        · intro h
          cases Except.ok.inj h
          exact ⟨rfl, hk⟩
        · rintro ⟨heq, hins⟩
          cases Option.some.inj heq
          rfl
  · intro hg
    unfold authorize
    rw [hg]
  · intro doc hg hk
    unfold authorize
    rw [hg]
    show (if isinstanceReq doc req = true then Except.ok doc else Except.error (reqMsg req))
        = Except.error (reqMsg req)
    rw [hk]
    simp

/-- Witness for C1 (amended): a calc session authorizes for a spreadsheet
operation and is refused, with the fixed message, for a text operation. -/
theorem dispatch_typed_guard_witness :
    authorize [("doc_0", ⟨DocKind.calc, 7⟩)] "doc_0" ReqKind.spreadsheet
      = .ok ⟨DocKind.calc, 7⟩
  ∧ authorize [("doc_0", ⟨DocKind.calc, 7⟩)] "doc_0" ReqKind.text
      = .error (reqMsg ReqKind.text) := by
  constructor
  · exact ((dispatch_typed_guard [("doc_0", ⟨DocKind.calc, 7⟩)] "doc_0"
      ReqKind.spreadsheet).1 ⟨DocKind.calc, 7⟩).mpr ⟨by decide, by decide⟩
  · exact (dispatch_typed_guard [("doc_0", ⟨DocKind.calc, 7⟩)] "doc_0"
      ReqKind.text).2.2 ⟨DocKind.calc, 7⟩ (by decide) (by decide)

/-- C2: closing a document whose id is present succeeds, and a second
close of the same id is refused with "Document not found" — double-close
is surfaced, not silently absorbed. -/
theorem close_twice (ctx : AppContext) (doc_id : String) (d : Document)
    (h : get_document ctx.documents doc_id = some d) :
    ∃ ctx2, close_document ctx doc_id = .ok ctx2
      ∧ close_document ctx2 doc_id = .error "Document not found" := by
  refine ⟨{ ctx with documents := remove_document ctx.documents doc_id }, ?_, ?_⟩
  · unfold close_document
    rw [h]
  · exact close_document_error _ _ (get_document_remove_self _ _)

/-- Witness for C2 at a one-session registry. -/
theorem close_twice_witness :
    ∃ ctx2, close_document ⟨some 1, [("doc_0", ⟨DocKind.calc, 7⟩)], 1⟩ "doc_0" = .ok ctx2
      ∧ close_document ctx2 "doc_0" = .error "Document not found" :=
  close_twice ⟨some 1, [("doc_0", ⟨DocKind.calc, 7⟩)], 1⟩ "doc_0" ⟨DocKind.calc, 7⟩ (by decide)

/-- C3: across any operation sequence the allocated ids are the images of
strictly increasing counter values, hence pairwise distinct; and once a
close succeeds for an id, the id stays absent under every further
operation sequence — lookup keeps failing and a repeated close keeps
reporting "Document not found", so an identifier is never reused. -/
theorem session_ids_fresh (ctx : AppContext) (ops : List Op) (hinv : RegInv ctx) :
    allocIds ctx ops = (allocNums ctx ops).map mkDocId
  ∧ List.Pairwise (· < ·) (allocNums ctx ops)
  ∧ (allocIds ctx ops).Nodup
  ∧ ∀ doc_id ctx2, close_document ctx doc_id = .ok ctx2 →
      ∀ ops2, get_document (runOps ctx2 ops2).documents doc_id = none
        ∧ close_document (runOps ctx2 ops2) doc_id = .error "Document not found" := by
  refine ⟨allocIds_eq_map ops ctx, allocNums_pairwise ops ctx, ?_, ?_⟩
  · rw [allocIds_eq_map]
    exact List.Nodup.map mkDocId_inj ((allocNums_pairwise ops ctx).imp Nat.ne_of_lt)
  · intro doc_id ctx2 hc ops2
    have hg := gone_runOps ctx2 ops2 doc_id (gone_of_close ctx ctx2 doc_id hinv hc)
    exact ⟨hg.1, close_document_error _ _ hg.1⟩

/-- Witness for C3: two allocations and a close from the empty registry
give distinct ids, and the closed id stays gone. -/
theorem session_ids_fresh_witness :
    (allocIds ⟨some 1, [], 0⟩
      [Op.alloc ⟨DocKind.calc, 7⟩, Op.alloc ⟨DocKind.writer, 8⟩]).Nodup := by
  have h1 : RegInv ⟨some 1, [], 0⟩ := by
    intro p hp
    simp at hp
  exact (session_ids_fresh ⟨some 1, [], 0⟩
    [Op.alloc ⟨DocKind.calc, 7⟩, Op.alloc ⟨DocKind.writer, 8⟩] h1).2.2.1

theorem parseAddress_cons (c : Char) (rest : List Char) :
    parseAddress (String.mk (c :: rest)) =
      (if ¬ c.isAlpha then Except.error "InvalidAddress"
      else if rest = [] then Except.error "InvalidAddress"
      else if ¬ rest.all Char.isDigit then Except.error "InvalidAddress"
      else
        if ((c.toUpper.toNat : Int) - 65) < 0 ∨ ((digitsVal rest : Int) - 1) < 0
        then Except.error "InvalidAddress"
        else Except.ok (⟨((c.toUpper.toNat : Int) - 65).toNat,
          ((digitsVal rest : Int) - 1).toNat⟩ : Address)) := rfl

/-- C4: the address parser maps a single uppercase letter L followed by a
positive decimal numeral with value R to column L minus 65 and row R
minus 1 (zero-based), and rejects with InvalidAddress the empty string,
a token with no row digits, a token whose first character is not a
letter, a zero row, and a negative row such as "A-1" (spec-modelled:
the parsing itself lives in the external ooodev library). -/
theorem parse_single_letter_address :
    (∀ (L : Char) (ds : List Char), 65 ≤ L.toNat → L.toNat ≤ 90 → ds ≠ [] →
      (∀ c ∈ ds, c.isDigit = true) → 1 ≤ digitsVal ds →
      parseAddress (String.mk (L :: ds)) = .ok ⟨L.toNat - 65, digitsVal ds - 1⟩)
  ∧ parseAddress "" = .error "InvalidAddress"
  ∧ (∀ (L : Char), 65 ≤ L.toNat → L.toNat ≤ 90 →
      parseAddress (String.mk [L]) = .error "InvalidAddress")
  ∧ (∀ (c : Char) (cs : List Char), c.isAlpha = false →
      parseAddress (String.mk (c :: cs)) = .error "InvalidAddress")
  ∧ (∀ (L : Char) (ds : List Char), 65 ≤ L.toNat → L.toNat ≤ 90 →
      (∀ c ∈ ds, c.isDigit = true) → digitsVal ds = 0 →
      parseAddress (String.mk (L :: ds)) = .error "InvalidAddress")
  ∧ parseAddress (String.mk ['A', '-', '1']) = .error "InvalidAddress" := by
  refine ⟨?_, rfl, ?_, ?_, ?_, rfl⟩
  · intro L ds hL1 hL2 hne hdig hpos
    have halpha : L.isAlpha = true := char_isAlpha_of_upper L hL1 hL2
    have hall : ds.all Char.isDigit = true := List.all_eq_true.mpr hdig
    rw [parseAddress_cons, if_neg (by rw [halpha]; simp), if_neg hne,
      if_neg (by rw [hall]; simp), char_toUpper_eq_self L hL2, if_neg (by omega)]
    simp only [Except.ok.injEq, Address.mk.injEq]
    constructor <;> omega
  · intro L hL1 hL2
    have halpha : L.isAlpha = true := char_isAlpha_of_upper L hL1 hL2
    rw [parseAddress_cons, if_neg (by rw [halpha]; simp), if_pos rfl]
  · intro c cs hc
    rw [parseAddress_cons, if_pos (by rw [hc]; simp)]
  · intro L ds hL1 hL2 hdig h0
    have halpha : L.isAlpha = true := char_isAlpha_of_upper L hL1 hL2
    have hall : ds.all Char.isDigit = true := List.all_eq_true.mpr hdig
    by_cases hne : ds = []
    · rw [parseAddress_cons, if_neg (by rw [halpha]; simp), if_pos hne]
    · rw [parseAddress_cons, if_neg (by rw [halpha]; simp), if_neg hne,
        if_neg (by rw [hall]; simp), if_pos (by omega)]

/-- Witness for C4: "B3" parses to column 1, row 2. -/
theorem parse_single_letter_address_witness :
    parseAddress (String.mk ['B', '3']) = .ok ⟨1, 2⟩ := by
  have h := parse_single_letter_address.1 'B' ['3'] (by decide) (by decide) (by decide)
    (by decide) (by decide)
  rw [h]
  rfl

/-- C5: for each range-oriented operation (format, conditional format,
chart, pivot source, sort, statistics), whenever the operation succeeds
the range handed to the remote call is the structured RangeAddress
parsed from the textual parameter — the raw text never crosses the
dispatch boundary as the range argument. -/
theorem range_params_structured :
    (∀ docs doc_id sheet_name range_address font_name font_size bold italic alignment
        call msg,
      format_cell_range docs doc_id sheet_name range_address font_name font_size
          bold italic alignment = .ok (call, msg) →
      parseRange 0 range_address = .ok call.rng)
  ∧ (∀ docs doc_id sheet_name range_address sheet threshold ac bc call msg,
      conditional_format docs doc_id sheet_name range_address sheet threshold ac bc
          = .ok (call, msg) →
      parseRange 0 range_address = .ok call.rng)
  ∧ (∀ docs doc_id sheet_name range_address target_cell chart_type title sl sd
        call msg,
      create_chart docs doc_id sheet_name range_address target_cell chart_type title
          sl sd = .ok (call, msg) →
      parseRange 0 range_address = .ok call.rng_obj)
  ∧ (∀ docs doc_id sheet_name source_range target_cell call msg,
      create_pivot_table docs doc_id sheet_name source_range target_cell
          = .ok (call, msg) →
      parseRange 0 source_range = .ok call.rng_obj)
  ∧ (∀ docs doc_id sheet_name range_address sort_column ascending call msg,
      sort_range docs doc_id sheet_name range_address sort_column ascending
          = .ok (call, msg) →
      parseRange 0 range_address = .ok call.rng)
  ∧ (∀ docs doc_id sheet_name range_address sheet rng stats,
      calculate_statistics docs doc_id sheet_name range_address sheet
          = .ok (rng, stats) →
      parseRange 0 range_address = .ok rng) := by
  refine ⟨?_, ?_, ?_, ?_, ?_, ?_⟩
  · intro docs doc_id sheet_name range_address font_name font_size bold italic
      alignment call msg h
    unfold format_cell_range at h
    cases ha : authorize docs doc_id ReqKind.spreadsheet with
    | error e => rw [ha] at h; simp at h
    | ok d =>
      rw [ha] at h
      cases hr : parseRange 0 range_address with
      | error e => rw [hr] at h; simp at h
      | ok r =>
        rw [hr] at h
        cases hm : alignment_map alignment.toLower with
        | none => rw [hm] at h; simp at h
        | some j =>
          rw [hm] at h
          simp only [Except.ok.injEq, Prod.mk.injEq] at h
          rw [← h.1]
  · intro docs doc_id sheet_name range_address sheet threshold ac bc call msg h
    unfold conditional_format at h
    cases ha : authorize docs doc_id ReqKind.spreadsheet with
    | error e => rw [ha] at h; simp at h
    | ok d =>
      rw [ha] at h
      cases hr : parseRange 0 range_address with
      | error e => rw [hr] at h; simp at h
      | ok r =>
        rw [hr] at h
        simp only [Except.ok.injEq, Prod.mk.injEq] at h
        rw [← h.1]
  · intro docs doc_id sheet_name range_address target_cell chart_type title sl sd
      call msg h
    unfold create_chart at h
    cases ha : authorize docs doc_id ReqKind.spreadsheet with
    | error e => rw [ha] at h; simp at h
    | ok d =>
      rw [ha] at h
      cases hm : chart_types chart_type with
      | none => rw [hm] at h; simp at h
      | some diagram =>
        rw [hm] at h
        cases hr : parseRange 0 range_address with
        | error e => rw [hr] at h; simp at h
        | ok r =>
          rw [hr] at h
          simp only [Except.ok.injEq, Prod.mk.injEq] at h
          rw [← h.1]
  · intro docs doc_id sheet_name source_range target_cell call msg h
    unfold create_pivot_table at h
    cases ha : authorize docs doc_id ReqKind.spreadsheet with
    | error e => rw [ha] at h; simp at h
    | ok d =>
      rw [ha] at h
      cases hr : parseRange 0 source_range with
      | error e => rw [hr] at h; simp at h
      | ok r =>
        rw [hr] at h
        simp only [Except.ok.injEq, Prod.mk.injEq] at h
        rw [← h.1]
  · intro docs doc_id sheet_name range_address sort_column ascending call msg h
    unfold sort_range at h
    cases ha : authorize docs doc_id ReqKind.spreadsheet with
    | error e => rw [ha] at h; simp at h
    | ok d =>
      rw [ha] at h
      cases hr : parseRange 0 range_address with
      | error e => rw [hr] at h; simp at h
      | ok r =>
        rw [hr] at h
        simp only [Except.ok.injEq, Prod.mk.injEq] at h
        rw [← h.1]
  · intro docs doc_id sheet_name range_address sheet rng stats h
    unfold calculate_statistics at h
    cases ha : authorize docs doc_id ReqKind.spreadsheet with
    | error e => rw [ha] at h; simp at h
    | ok d =>
      rw [ha] at h
      cases hr : parseRange 0 range_address with
      | error e => rw [hr] at h; simp at h
      | ok r =>
        rw [hr] at h
        by_cases hv : ((rangeCells sheet r).filterMap numVal) = []
        · simp only [hv, if_true, Except.ok.injEq, Prod.mk.injEq] at h
          rw [← h.1]
        · simp only [hv, if_false, Except.ok.injEq, Prod.mk.injEq] at h
          rw [← h.1]

/-- Witness for C5: a successful `sort_range` call carries the parsed
range "A1:B2". -/
theorem range_params_structured_witness :
    parseRange 0 "A1:B2"
      = .ok ((⟨⟨0, 0, 0, 1, 1⟩, [⟨2, true⟩]⟩ : SortRangeCall).rng) := by
  have h := range_params_structured.2.2.2.2.1
    [("doc_0", ⟨DocKind.calc, 7⟩)] "doc_0" "Sheet1" "A1:B2" 2 true
    ⟨⟨0, 0, 0, 1, 1⟩, [⟨2, true⟩]⟩
    ("Sorted range " ++ "A1:B2" ++ " by column " ++ toString (2 : Int) ++ " "
      ++ (if true then "ascending" else "descending"))
    (by rfl)
  exact h

theorem authorize_ok_of_kind (docs : Registry) (doc_id : String) (d : Document)
    (req : ReqKind) (hdoc : get_document docs doc_id = some d)
    (hins : isinstanceReq d req = true) :
    authorize docs doc_id req = .ok d := by
  unfold authorize
  rw [hdoc]
  show (if isinstanceReq d req = true then Except.ok d else Except.error (reqMsg req))
      = Except.ok d
  rw [hins]
  simp

/-- C6: for a spreadsheet session, statistics over a range none of whose
cells holds a numeric value returns sum 0 and average 0, not an error. -/
theorem stats_empty_range (docs : Registry) (doc_id sheet_name range_address : String)
    (sheet : Sheet) (d : Document) (r : RangeAddress)
    (hdoc : get_document docs doc_id = some d) (hkind : d.kind = DocKind.calc)
    (hr : parseRange 0 range_address = .ok r)
    (hnone : ∀ cv ∈ rangeCells sheet r, numVal cv = none) :
    calculate_statistics docs doc_id sheet_name range_address sheet
      = .ok (r, ⟨0, 0⟩) := by
  have ha : authorize docs doc_id .spreadsheet = .ok d :=
    authorize_ok_of_kind docs doc_id d .spreadsheet hdoc (by simp [isinstanceReq, hkind])
  have hempty : (rangeCells sheet r).filterMap numVal = [] :=
    List.filterMap_eq_nil_iff.mpr hnone
  unfold calculate_statistics
  rw [ha, hr]
  show (if (rangeCells sheet r).filterMap numVal = []
      then Except.ok (r, (⟨0, 0⟩ : Stats))
      else Except.ok (r, (⟨((rangeCells sheet r).filterMap numVal).sum,
        ((rangeCells sheet r).filterMap numVal).sum
          / (((rangeCells sheet r).filterMap numVal).length : ℚ)⟩ : Stats)))
    = Except.ok (r, (⟨0, 0⟩ : Stats))
  rw [if_pos hempty]

/-- Witness for C6: statistics over "A1:B2" on a sheet of strings. -/
theorem stats_empty_range_witness :
    calculate_statistics [("doc_0", ⟨DocKind.calc, 7⟩)] "doc_0" "Sheet1" "A1:B2"
      (fun _ => CellValue.str "x") = .ok (⟨0, 0, 0, 1, 1⟩, ⟨0, 0⟩) :=
  stats_empty_range [("doc_0", ⟨DocKind.calc, 7⟩)] "doc_0" "Sheet1" "A1:B2"
    (fun _ => CellValue.str "x") ⟨DocKind.calc, 7⟩ ⟨0, 0, 0, 1, 1⟩
    (by rfl) rfl (by rfl) (by decide)

theorem close_office_documents (ctx : AppContext) :
    (close_office ctx).documents = ctx.documents := by
  unfold close_office
  cases h : ctx.loader <;> rfl

theorem close_office_loader (ctx : AppContext) :
    (close_office ctx).loader = none := by
  unfold close_office
  cases h : ctx.loader
  · exact h
  · rfl

theorem app_shutdown_fst (ctx : AppContext) :
    (app_shutdown ctx).1
      = (shutdownLoop (ctx.documents.map Prod.fst) ctx.documents).1
        ++ (match ctx.loader with
            | some _ => [Event.disconnect]
            | none => []) := rfl

theorem app_shutdown_snd (ctx : AppContext) :
    (app_shutdown ctx).2
      = close_office { ctx with
          documents := (shutdownLoop (ctx.documents.map Prod.fst) ctx.documents).2 } := rfl

theorem shutdownLoop_registry : ∀ (ids : List String) (docs : Registry),
    (shutdownLoop ids docs).2 = docs.filter (fun p => ¬ p.1 ∈ ids) := by
  intro ids
  induction ids with
  | nil =>
    intro docs
    simp [shutdownLoop]
  | cons i rest ih =>
    intro docs
    simp only [shutdownLoop]
    rw [ih]
    unfold remove_document
    rw [List.filter_filter]
    apply List.filter_congr
    intro p hp
    by_cases h1 : p.1 = i <;> by_cases h2 : p.1 ∈ rest <;> simp [h1, h2]

theorem shutdownLoop_events_closeDoc : ∀ (ids : List String) (docs : Registry),
    ∀ e ∈ (shutdownLoop ids docs).1, ∃ i, e = Event.closeDoc i := by
  intro ids
  induction ids with
  | nil =>
    intro docs e he
    simp [shutdownLoop] at he
  | cons i rest ih =>
    intro docs e he
    simp only [shutdownLoop] at he
    rw [List.mem_append] at he
    cases he with
    | inl h1 =>
      cases hg : get_document docs i <;> rw [hg] at h1
      · simp at h1
      · simp at h1
        exact ⟨i, h1⟩
    | inr h2 => exact ih _ e h2

theorem shutdownLoop_events_cover : ∀ (ids : List String) (docs : Registry),
    ids.Nodup → ∀ i ∈ ids, (get_document docs i).isSome = true →
      Event.closeDoc i ∈ (shutdownLoop ids docs).1 := by
  intro ids
  induction ids with
  | nil =>
    intro docs _ i hi
    simp at hi
  | cons j rest ih =>
    intro docs hnd i hi hsome
    simp only [shutdownLoop]
    rw [List.mem_append]
    rcases List.mem_cons.mp hi with h1 | hi2
    · subst h1
      left
      cases hg : get_document docs i
      · rw [hg] at hsome
        simp at hsome
      · simp
    · right
      have hnj : i ≠ j := fun hc => (List.nodup_cons.mp hnd).1 (hc ▸ hi2)
      refine ih _ (List.nodup_cons.mp hnd).2 i hi2 ?_
      rw [get_document_remove_other _ _ _ hnj]
      exact hsome

/-- C7: shutdown closes every session individually and only then
disconnects; afterwards the registry is empty and the connection is
gone.  The emitted event trace is a block of closeDoc events — one for
every registered id — followed only by the disconnect. -/
theorem shutdown_closes_all (ctx : AppContext)
    (hnd : (ctx.documents.map Prod.fst).Nodup) :
    (app_shutdown ctx).2.documents = []
  ∧ (app_shutdown ctx).2.loader = none
  ∧ ∃ closes discs,
      (app_shutdown ctx).1 = closes ++ discs
      ∧ (∀ e ∈ closes, ∃ i, e = Event.closeDoc i)
      ∧ (∀ e ∈ discs, e = Event.disconnect)
      ∧ ∀ doc_id ∈ ctx.documents.map Prod.fst, Event.closeDoc doc_id ∈ closes := by
  have hdocs : (shutdownLoop (ctx.documents.map Prod.fst) ctx.documents).2 = [] := by
    rw [shutdownLoop_registry]
    rw [List.filter_eq_nil_iff]
    intro p hp
    have hmem : p.1 ∈ ctx.documents.map Prod.fst := List.mem_map_of_mem Prod.fst hp
    simp [hmem]
  refine ⟨?_, ?_, ?_⟩
  · rw [app_shutdown_snd, close_office_documents]
    exact hdocs
  · rw [app_shutdown_snd, close_office_loader]
  · refine ⟨(shutdownLoop (ctx.documents.map Prod.fst) ctx.documents).1,
      (match ctx.loader with
        | some _ => [Event.disconnect]
        | none => []),
      app_shutdown_fst ctx, shutdownLoop_events_closeDoc _ _, ?_, ?_⟩
    · intro e he
      cases hl : ctx.loader <;> rw [hl] at he
      · simp at he
      · simp at he
        exact he
    · intro doc_id hd
      exact shutdownLoop_events_cover _ _ hnd doc_id hd
        (get_document_isSome_of_mem _ _ hd)

/-- Witness for C7: shutdown of a connected context with two sessions. -/
theorem shutdown_closes_all_witness :
    (app_shutdown ⟨some 1, [("doc_0", ⟨DocKind.calc, 7⟩),
        ("doc_1", ⟨DocKind.writer, 8⟩)], 2⟩).2.documents = [] :=
  (shutdown_closes_all ⟨some 1, [("doc_0", ⟨DocKind.calc, 7⟩),
    ("doc_1", ⟨DocKind.writer, 8⟩)], 2⟩ (by decide)).1

/-- C8: `start_office` in the connected state is a no-op returning the
existing loader (even when a fresh connection attempt would fail), and
`close_office` in the disconnected state is a no-op; neither redundant
call changes the context. -/
theorem connection_idempotent (ctx : AppContext) :
    (∀ l connectResult, ctx.loader = some l →
      start_office ctx connectResult = .ok (ctx, l))
  ∧ (ctx.loader = none → close_office ctx = ctx) := by
  constructor
  · intro l connectResult hl
    unfold start_office
    rw [hl]
  · intro hl
    unfold close_office
    rw [hl]

/-- Witness for C8: a connected context survives a redundant connect with
a refusing engine, and a disconnected context survives a redundant
disconnect. -/
theorem connection_idempotent_witness :
    start_office ⟨some 5, [], 0⟩ (Except.error "refused") = .ok (⟨some 5, [], 0⟩, 5)
  ∧ close_office ⟨none, [], 0⟩ = ⟨none, [], 0⟩ :=
  ⟨(connection_idempotent ⟨some 5, [], 0⟩).1 5 (Except.error "refused") rfl,
    (connection_idempotent ⟨none, [], 0⟩).2 rfl⟩

/-- C9: for a spreadsheet session and a valid cell address,
`set_cell_value` stores the parsed number when Python `float(value)`
succeeds and the raw string itself when it raises `ValueError`, leaving
every other cell unchanged and returning the confirmation message in
both cases. -/
theorem set_cell_value_float_or_string (pyFloat : String → Option ℚ)
    (docs : Registry) (doc_id sheet_name cell_address : String) (sheet : Sheet)
    (value : String) (d : Document) (addr : Address)
    (hdoc : get_document docs doc_id = some d) (hkind : d.kind = DocKind.calc)
    (haddr : parseAddress cell_address = .ok addr) :
    ∃ sheet2, set_cell_value pyFloat docs doc_id sheet_name cell_address sheet value
        = .ok (sheet2, "Set " ++ cell_address ++ " to " ++ value)
      ∧ (∀ q, pyFloat value = some q → sheet2 addr = .num q)
      ∧ (pyFloat value = none → sheet2 addr = .str value)
      ∧ ∀ a, a ≠ addr → sheet2 a = sheet a := by
  have ha : authorize docs doc_id .spreadsheet = .ok d :=
    authorize_ok_of_kind docs doc_id d .spreadsheet hdoc (by simp [isinstanceReq, hkind])
  refine ⟨fun a => if a = addr then
      (match pyFloat value with
        | some q => CellValue.num q
        | none => CellValue.str value)
      else sheet a, ?_, ?_, ?_, ?_⟩
  · unfold set_cell_value
    rw [ha, haddr]
  · intro q hq
    simp [hq]
  · intro hq
    simp [hq]
  · intro a hne
    simp [hne]

/-- Witness for C9: storing "2" through a float parser that accepts it
writes the number 2 into A1. -/
theorem set_cell_value_float_or_string_witness :
    ∃ sheet2, set_cell_value (fun s => if s = "2" then some (2 : ℚ) else none)
        [("doc_0", ⟨DocKind.calc, 7⟩)] "doc_0" "Sheet1" "A1"
        (fun _ => CellValue.empty) "2"
        = .ok (sheet2, "Set " ++ "A1" ++ " to " ++ "2")
      ∧ sheet2 ⟨0, 0⟩ = CellValue.num 2 := by
  obtain ⟨s2, h1, h2, h3, h4⟩ := set_cell_value_float_or_string
    (fun s => if s = "2" then some (2 : ℚ) else none) [("doc_0", ⟨DocKind.calc, 7⟩)]
    "doc_0" "Sheet1" "A1" (fun _ => CellValue.empty) "2" ⟨DocKind.calc, 7⟩ ⟨0, 0⟩
    (by rfl) rfl (by rfl)
  exact ⟨s2, h1, h2 2 (by rfl)⟩

theorem insert_text_auth (docs : Registry) (doc_id : String) (docText text : String)
    (position : Int) (d : Document)
    (ha : authorize docs doc_id .text = .ok d) :
    insert_text docs doc_id docText text position
      = if position < 0 ∨ (docText.length : Int) < position
        then .error ("Position " ++ toString position ++ " out of range (0-"
          ++ toString (docText.length : Int) ++ ")")
        else .ok (String.mk (docText.data.take position.toNat ++ text.data
            ++ docText.data.drop position.toNat),
          "Inserted \x27" ++ text ++ "\x27 at position " ++ toString position) := by
  unfold insert_text
  rw [ha]

/-- C10: for a text-document session, `insert_text` fails exactly when
the position is negative or exceeds the current text length; for a
position within bounds the text is spliced in at that position and the
confirmation message returned. -/
theorem insert_text_position_check (docs : Registry) (doc_id : String)
    (docText text : String) (position : Int) (d : Document)
    (hdoc : get_document docs doc_id = some d) (hkind : d.kind = DocKind.writer) :
    ((∃ e, insert_text docs doc_id docText text position = .error e) ↔
      (position < 0 ∨ (docText.length : Int) < position))
  ∧ (0 ≤ position → position ≤ (docText.length : Int) →
      insert_text docs doc_id docText text position
        = .ok (String.mk (docText.data.take position.toNat ++ text.data
            ++ docText.data.drop position.toNat),
          "Inserted \x27" ++ text ++ "\x27 at position " ++ toString position)) := by
  have ha : authorize docs doc_id .text = .ok d :=
    authorize_ok_of_kind docs doc_id d .text hdoc (by simp [isinstanceReq, hkind])
  constructor
  · constructor
    · rintro ⟨e, he⟩
      rw [insert_text_auth docs doc_id docText text position d ha] at he
      by_cases hpos : position < 0 ∨ (docText.length : Int) < position
      · exact hpos
      · rw [if_neg hpos] at he
        exact absurd he (by simp)
    · intro hpos
      rw [insert_text_auth docs doc_id docText text position d ha, if_pos hpos]
      exact ⟨_, rfl⟩
  · intro h1 h2
    rw [insert_text_auth docs doc_id docText text position d ha, if_neg (by omega)]

/-- Witness for C10: inserting "XY" at position 2 of "abcd" succeeds and
position 7 is rejected. -/
theorem insert_text_position_check_witness :
    insert_text [("doc_0", ⟨DocKind.writer, 3⟩)] "doc_0" "abcd" "XY" 2
      = .ok ("abXYcd", "Inserted \x27" ++ "XY" ++ "\x27 at position "
        ++ toString (2 : Int))
  ∧ (∃ e, insert_text [("doc_0", ⟨DocKind.writer, 3⟩)] "doc_0" "abcd" "XY" 7
      = .error e) := by
  constructor
  · have h := (insert_text_position_check [("doc_0", ⟨DocKind.writer, 3⟩)] "doc_0"
      "abcd" "XY" 2 ⟨DocKind.writer, 3⟩ (by rfl) rfl).2 (by decide) (by decide)
    rw [h]
    rfl
  · exact ((insert_text_position_check [("doc_0", ⟨DocKind.writer, 3⟩)] "doc_0"
      "abcd" "XY" 7 ⟨DocKind.writer, 3⟩ (by rfl) rfl).1).mpr (by decide)
